import Mathlib

/-!
Verification of the optiplan-optimizer production scheduler.

The definitions below are a shallow embedding of the Python sources
(`production_scheduler.py`, `database_handler.py`, `results_writer.py`):
pure functions become Lean functions over explicit environments
(the lookup dictionaries built in the pre-processing phase), the
CP-SAT constraints become predicates over an explicit solution record,
and the database sink becomes explicit state passing over a small
transactional connection model.  Python floats are modelled as exact
rationals, Python ints as `Int`/`Nat`, dictionary lookups as
`Option`-valued functions, and unbounded `while` loops as fuel-indexed
recursions.
-/

/- ### Python arithmetic helpers -/


/-- Python `int(x)` on a rational: truncation toward zero. -/
def pyTrunc (q : ℚ) : ℤ := if 0 ≤ q then ⌊q⌋ else -⌊-q⌋

/-- Python `round(x)` on a rational: round half to even. -/
def pyRound (q : ℚ) : ℤ :=
  if q - ⌊q⌋ < 1/2 then ⌊q⌋
  else if 1/2 < q - ⌊q⌋ then ⌊q⌋ + 1
  else if ⌊q⌋ % 2 = 0 then ⌊q⌋ else ⌊q⌋ + 1

/-- Python `max(xs)` on a list of rationals (callers guard against `[]`,
where Python would raise; we return 0 there, a value never used). -/
def pyMax : List ℚ → ℚ
  | [] => 0
  | h :: t => t.foldl max h

/- ### Changeover engine (production_scheduler.py, get_changeover_time) -/


/-- One row of `attr_param_map` (`Attributes_parameters`): only the
`AttributeId` field is consulted by the scheduler. -/
structure AttrParam where
  attributeId : Nat
deriving DecidableEq

/-- The lookup structures built in the pre-processing phase (section 2a of
`solve_schedule`) that `get_changeover_time` closes over:
`res_to_changeover_group` (populated only for truthy `ChangeoverGroupId`),
`order_to_attr_params`, `attr_param_map`, `changeover_matrix`,
`changeover_standard` and `res_accumulative`. -/
structure ChangeoverEnv where
  resToChangeoverGroup : Nat → Option Nat
  orderToAttrParams : Nat → List Nat
  attrParamMap : Nat → Option AttrParam
  changeoverMatrix : Nat → Nat → Nat → Nat → Option ℚ
  changeoverStandard : Nat → Nat → Option ℚ
  resAccumulative : Nat → Bool

/-- Body of the inner `for from_param_id in from_params` loop of
`get_changeover_time`: skip an unresolvable param or a param of a
different attribute; an identical param contributes 0, otherwise the
matrix entry if present, otherwise the standard time if present,
otherwise nothing. -/
def innerTime (E : ChangeoverEnv) (g tAttr tp : Nat) (fp : Nat) : Option ℚ :=
  match E.attrParamMap fp with
  | none => none
  | some fpRec =>
    if fpRec.attributeId ≠ tAttr then none
    else if fp = tp then some 0
    else match E.changeoverMatrix g tAttr fp tp with
      | some v => some v
      | none => E.changeoverStandard g tAttr

/-- Body of the outer `for to_param_id in to_params` loop of
`get_changeover_time`: an unresolvable to-param contributes nothing. -/
def outerTimes (E : ChangeoverEnv) (g : Nat) (fromParams : List Nat) (tp : Nat) : List ℚ :=
  match E.attrParamMap tp with
  | none => []
  | some tpRec => fromParams.filterMap (innerTime E g tpRec.attributeId tp)

/-- The `times` list collected by the two nested loops of
`get_changeover_time`. -/
def collectTimes (E : ChangeoverEnv) (g : Nat) (fromParams toParams : List Nat) : List ℚ :=
  toParams.flatMap (outerTimes E g fromParams)

/-- Embedding of `get_changeover_time(from_order_id, to_order_id, resource_id)`
(production_scheduler.py lines 106-161). -/
def get_changeover_time (E : ChangeoverEnv) (fromOrderId toOrderId resourceId : Nat) : ℚ :=
  match E.resToChangeoverGroup resourceId with
  | none => 0
  | some g =>
    let fromParams := E.orderToAttrParams fromOrderId
    let toParams := E.orderToAttrParams toOrderId
    if fromParams = [] ∨ toParams = [] then 0
    else
      let times := collectTimes E g fromParams toParams
      if times = [] then 0
      else if E.resAccumulative resourceId then pyMax times
      else times.sum

/-- One contribution of the spec's step 3 (section 4.2), transcribed from
the spec's words: "If `f == t`: append 0.  Else if `(G, a, f, t)` in
matrix: append that entry.  Else if `(G, a)` in standards: append that
standard.  Else: skip."  The spec gives every attribute parameter a total
attribute assignment `attrOf`. -/
def specContribution (g : Nat) (attrOf : Nat → Nat)
    (matrix : Nat → Nat → Nat → Nat → Option ℚ) (standard : Nat → Nat → Option ℚ)
    (t f : Nat) : Option ℚ :=
  if f = t then some 0
  else match matrix g (attrOf t) f t with
    | some v => some v
    | none => standard g (attrOf t)

/-- Contribution collection transcribed from the spec's step 3: "For each
`t ∈ TP`: let `a = t.attribute_id`.  For each `f ∈ FP` with
`f.attribute_id == a`: ...". -/
def specContributions (g : Nat) (attrOf : Nat → Nat)
    (matrix : Nat → Nat → Nat → Nat → Option ℚ) (standard : Nat → Nat → Option ℚ)
    (FP TP : List Nat) : List ℚ :=
  TP.flatMap (fun t =>
    (FP.filter (fun f => attrOf f = attrOf t)).filterMap
      (specContribution g attrOf matrix standard t))

/-- Function `changeover_minutes` transcribed from the spec's algorithm steps 1-5
(section 4.2), for comparison with the implementation. -/
def specChangeoverMinutes (group : Option Nat) (attrOf : Nat → Nat)
    (matrix : Nat → Nat → Nat → Nat → Option ℚ) (standard : Nat → Nat → Option ℚ)
    (accumulative : Bool) (FP TP : List Nat) : ℚ :=
  match group with
  | none => 0
  | some g =>
    if FP = [] ∨ TP = [] then 0
    else
      let contributions := specContributions g attrOf matrix standard FP TP
      if contributions = [] then 0
      else if accumulative then pyMax contributions
      else contributions.sum

/-- Concrete changeover environment: one group, two orders with one
attribute parameter each (both of attribute 5), a total matrix of 7 and a
standard of 3, nothing accumulative. -/
def posEnv : ChangeoverEnv where
  resToChangeoverGroup := fun _ => some 1
  orderToAttrParams := fun o => if o = 1 then [100] else if o = 2 then [101] else []
  attrParamMap := fun _ => some ⟨5⟩
  changeoverMatrix := fun _ _ _ _ => some 7
  changeoverStandard := fun _ _ => some 3
  resAccumulative := fun _ => false

/-- Concrete changeover environment whose matrix contains a negative
setup time for the transition 100 → 101 of attribute 5 in group 1. -/
def negEnv : ChangeoverEnv where
  resToChangeoverGroup := fun r => if r = 10 then some 1 else none
  orderToAttrParams := fun o => if o = 1 then [100] else if o = 2 then [101] else []
  attrParamMap := fun p => if p = 100 ∨ p = 101 then some ⟨5⟩ else none
  changeoverMatrix := fun g a f t => if g = 1 ∧ a = 5 ∧ f = 100 ∧ t = 101 then some (-5) else none
  changeoverStandard := fun _ _ => none
  resAccumulative := fun _ => false

/- ### Calendar engine (production_scheduler.py, sections 2b and helpers) -/


/-- Shift configuration constants (production_scheduler.py lines 10-21). -/
def SHIFT_START_HOUR : ℤ := 8

def SHIFT_START_MIN : ℤ := 0

def SHIFT_END_HOUR : ℤ := 16

def SHIFT_END_MIN : ℤ := 30

def SHIFT_DURATION_MINUTES : ℤ :=
  (SHIFT_END_HOUR * 60 + SHIFT_END_MIN) - (SHIFT_START_HOUR * 60 + SHIFT_START_MIN)

/-- A time of day, as stored in the Shifts and Breaks tables. -/
structure Tm where
  hour : Nat
  minute : Nat
deriving DecidableEq

/-- Embedding of `time_to_minutes`: minutes since midnight; `None` maps to 0.  (The
Python function also parses "HH:MM" strings; both representations carry an
hour and a minute, which is what `Tm` models.) -/
def time_to_minutes : Option Tm → ℤ
  | none => 0
  | some t => t.hour * 60 + t.minute

/-- One row of `shift_map` (`StartTime`/`EndTime` are the fields read). -/
structure WorkShift where
  startTime : Option Tm
  endTime : Option Tm
deriving DecidableEq

/-- One row of `break_map`. -/
structure Brk where
  startTime : Option Tm
  endTime : Option Tm
deriving DecidableEq

/-- One row of `schedule_map`: the shift id for each weekday
(0 = Monday .. 6 = Sunday, as `date.weekday()` returns), `none` for a
null day. -/
structure Sched where
  day : Nat → Option Nat

/-- The calendar lookup structures built in section 2b of `solve_schedule`:
`res_to_schedule` (a Python dict whose `.get` returns `None` both for a
missing resource and for a stored NULL `ScheduleId`), `schedule_map`,
`shift_map` and `shift_breaks`.  Dates are modelled as day numbers with
`weekday = date % 7`. -/
structure CalendarEnv where
  resToSchedule : Nat → Option Nat
  scheduleMap : Nat → Option Sched
  shiftMap : Nat → Option WorkShift
  shiftBreaks : Nat → List Brk

/-- Duration of one break with overnight wraparound, as computed inside
`get_resource_working_minutes_for_date`. -/
def breakMinutes (b : Brk) : ℤ :=
  let d := time_to_minutes b.endTime - time_to_minutes b.startTime
  if d < 0 then d + 1440 else d

/-- Embedding of `get_resource_working_minutes_for_date(resource_id, date)`
(production_scheduler.py lines 224-272).  The Python truthiness test
`if not schedule_id or schedule_id not in schedule_map` distinguishes a
NULL id (return 0) from a falsy-but-present id 0 or a dangling id (return
`SHIFT_DURATION_MINUTES`); a dangling shift id likewise yields the
default. -/
def get_resource_working_minutes_for_date (E : CalendarEnv) (resourceId date : Nat) : ℤ :=
  match E.resToSchedule resourceId with
  | none => 0
  | some scheduleId =>
    if scheduleId = 0 then SHIFT_DURATION_MINUTES
    else
      match E.scheduleMap scheduleId with
      | none => SHIFT_DURATION_MINUTES
      | some schedule =>
        match schedule.day (date % 7) with
        | none => 0
        | some shiftId =>
          match E.shiftMap shiftId with
          | none => SHIFT_DURATION_MINUTES
          | some shift =>
            let grossMinutes := time_to_minutes shift.endTime - time_to_minutes shift.startTime
            let grossMinutes := if grossMinutes < 0 then grossMinutes + 1440 else grossMinutes
            let totalBreakMinutes := ((E.shiftBreaks shiftId).map breakMinutes).sum
            max 0 (grossMinutes - totalBreakMinutes)

/-- Embedding of `get_shift_start_time_for_date(resource_id, date)`
(production_scheduler.py lines 274-289). -/
def get_shift_start_time_for_date (E : CalendarEnv) (resourceId date : Nat) : ℤ :=
  match E.resToSchedule resourceId with
  | none => SHIFT_START_HOUR * 60 + SHIFT_START_MIN
  | some scheduleId =>
    if scheduleId = 0 then SHIFT_START_HOUR * 60 + SHIFT_START_MIN
    else
      match E.scheduleMap scheduleId with
      | none => SHIFT_START_HOUR * 60 + SHIFT_START_MIN
      | some schedule =>
        match schedule.day (date % 7) with
        | none => SHIFT_START_HOUR * 60 + SHIFT_START_MIN
        | some shiftId =>
          match E.shiftMap shiftId with
          | none => SHIFT_START_HOUR * 60 + SHIFT_START_MIN
          | some shift => time_to_minutes shift.startTime

/-- The `while get_resource_working_minutes_for_date(...) == 0` skip loop
of `working_minutes_to_real_time_for_resource`.  The Python loop has no
bound; `fuel` counts loop iterations so that nontermination is observable
as `none` for every fuel value. -/
def findWorkingDay (E : CalendarEnv) (resourceId : Nat) : Nat → Nat → Option Nat
  | 0, _ => none
  | fuel + 1, date =>
    if get_resource_working_minutes_for_date E resourceId date = 0 then
      findWorkingDay E resourceId fuel (date + 1)
    else some date

/-- The `while remaining_minutes > 0` consume loop of
`working_minutes_to_real_time_for_resource`, entered with a positive
remainder; a day result is `date * 1440 + shift_start + remaining`
(the `replace(hour, minute)` plus `timedelta` of the Python code, in
minutes since the epoch of day 0). -/
def consumeWorkingDays (E : CalendarEnv) (resourceId : Nat) : Nat → Nat → ℤ → Option ℤ
  | 0, _, _ => none
  | fuel + 1, date, remaining =>
    if get_resource_working_minutes_for_date E resourceId date = 0 then
      consumeWorkingDays E resourceId fuel (date + 1) remaining
    else if remaining ≤ get_resource_working_minutes_for_date E resourceId date then
      some (date * 1440 + get_shift_start_time_for_date E resourceId date + remaining)
    else
      consumeWorkingDays E resourceId fuel (date + 1)
        (remaining - get_resource_working_minutes_for_date E resourceId date)

/-- Embedding of `working_minutes_to_real_time_for_resource(resource_id, start_datetime,
worked_minutes)` (production_scheduler.py lines 291-339), fuel-indexed:
the Python function's two `while` loops carry no bound, so the embedding
returns `none` when `fuel` days of look-ahead are exhausted without the
loop having returned. -/
def working_minutes_to_real_time_for_resource (E : CalendarEnv) (resourceId : Nat)
    (fuel startDate : Nat) (workedMinutes : ℤ) : Option ℤ :=
  if workedMinutes = 0 then
    match findWorkingDay E resourceId fuel startDate with
    | none => none
    | some d => some (d * 1440 + get_shift_start_time_for_date E resourceId d)
  else
    match findWorkingDay E resourceId fuel startDate with
    | none => none
    | some d => consumeWorkingDays E resourceId fuel d workedMinutes

/-- Calendar environment of a resource (id 3) with no schedule assigned:
`res_to_schedule.get` yields `None`, so every day has zero working
minutes. -/
def noWorkEnv : CalendarEnv where
  resToSchedule := fun _ => none
  scheduleMap := fun _ => none
  shiftMap := fun _ => none
  shiftBreaks := fun _ => []

/-- Calendar environment with resource 1 lacking a schedule and resource 2
on schedule 3: Monday maps to shift 4 (08:00-16:30 with a 30-minute
break), Saturday (weekday 5) is a null day. -/
def calEnvW : CalendarEnv where
  resToSchedule := fun r => if r = 2 then some 3 else none
  scheduleMap := fun s => if s = 3 then some ⟨fun w => if w = 0 then some 4 else none⟩ else none
  shiftMap := fun sh => if sh = 4 then some ⟨some ⟨8, 0⟩, some ⟨16, 30⟩⟩ else none
  shiftBreaks := fun sh => if sh = 4 then [⟨some ⟨12, 0⟩, some ⟨12, 30⟩⟩] else []

/- ### Model builder: per-operation duration variables (C5) -/


/-- Embedding of `convert_days_to_working_minutes(days_float)` (production_scheduler.py
lines 23-25): `None` maps to 0, otherwise `int(float(days) * 1440)` —
truncation toward zero, not rounding. -/
def convert_days_to_working_minutes : Option ℚ → ℤ
  | none => 0
  | some d => pyTrunc (d * 1440)

/-- The local `duration` computed at production_scheduler.py lines 408-411
(`setup_mins + process_mins`, clamped to at least 1).  This local is never
used by the constraint model: `duration_var` is constrained to
`actual_setup_var + process_mins` instead. -/
def localClampedDuration (setupTimeDays processTimeDays : Option ℚ) : ℤ :=
  let d := convert_days_to_working_minutes setupTimeDays +
    convert_days_to_working_minutes processTimeDays
  if d < 1 then 1 else d

/-- The solver variables attached to one operation that claim C5 is
about. -/
structure OpVars where
  setup : ℤ
  duration : ℤ
deriving DecidableEq

/-- The constraints the model places on one operation's setup and duration
variables: the `NewIntVar(0, horizon, ...)` domains, line 422's
`duration_var == actual_setup_var + process_mins`, and line 569's
`setup_time_vars[oid] == 0`. -/
def opDurationConstraints (horizon : ℤ) (processTimeDays : Option ℚ) (v : OpVars) : Prop :=
  (0 ≤ v.setup ∧ v.setup ≤ horizon) ∧
  (0 ≤ v.duration ∧ v.duration ≤ horizon) ∧
  v.duration = v.setup + convert_days_to_working_minutes processTimeDays ∧
  v.setup = 0

/- ### Model builder: pairwise changeover constraints (C3) -/


/-- Python `int(round(...))` applied to a changeover time, as at
production_scheduler.py lines 535 and 549. -/
def changeoverInt (E : ChangeoverEnv) (i j r : Nat) : ℤ :=
  pyRound (get_changeover_time E i j r)

/-- A full assignment to the variables created by the pairwise changeover
loop of section 6a of `solve_schedule` (`start_`/`end_` per task,
`sel_{o,r}`, `order_i_before_j`, `both_on_resource`, the per-orientation
cost variables, and `total_changeover_cost`). -/
structure PairSol where
  start : Nat → ℤ
  stop : Nat → ℤ
  sel : Nat → Nat → Bool
  iBeforeJ : Nat → Nat → Nat → Bool
  bothOn : Nat → Nat → Nat → Bool
  costF : Nat → Nat → Nat → ℤ
  costB : Nat → Nat → Nat → ℤ
  totalChangeoverCost : ℤ

/-- The constraints emitted for one resource/pair iteration of the loop at
production_scheduler.py lines 510-559: the reified `both_on_resource`
definition, and per direction either (for a positive changeover) the gap
constraint plus the cost variable's domain and its three defining
constraints, or (otherwise) the plain no-gap ordering constraint. -/
def pairConstraints (E : ChangeoverEnv) (s : PairSol) (r i j : Nat) : Prop :=
  (s.bothOn i j r = true → s.sel i r = true ∧ s.sel j r = true) ∧
  (s.bothOn i j r = false → s.sel i r = false ∨ s.sel j r = false) ∧
  (0 < get_changeover_time E i j r →
    (s.bothOn i j r = true → s.iBeforeJ i j r = true →
      s.stop i + changeoverInt E i j r ≤ s.start j) ∧
    (0 ≤ s.costF i j r ∧ s.costF i j r ≤ changeoverInt E i j r) ∧
    (s.bothOn i j r = true → s.iBeforeJ i j r = true →
      s.costF i j r = changeoverInt E i j r) ∧
    (s.bothOn i j r = false → s.costF i j r = 0) ∧
    (s.iBeforeJ i j r = false → s.costF i j r = 0)) ∧
  (¬ 0 < get_changeover_time E i j r →
    (s.bothOn i j r = true → s.iBeforeJ i j r = true → s.stop i ≤ s.start j)) ∧
  (0 < get_changeover_time E j i r →
    (s.bothOn i j r = true → s.iBeforeJ i j r = false →
      s.stop j + changeoverInt E j i r ≤ s.start i) ∧
    (0 ≤ s.costB i j r ∧ s.costB i j r ≤ changeoverInt E j i r) ∧
    (s.bothOn i j r = true → s.iBeforeJ i j r = false →
      s.costB i j r = changeoverInt E j i r) ∧
    (s.bothOn i j r = false → s.costB i j r = 0) ∧
    (s.iBeforeJ i j r = true → s.costB i j r = 0)) ∧
  (¬ 0 < get_changeover_time E j i r →
    (s.bothOn i j r = true → s.iBeforeJ i j r = false → s.stop j ≤ s.start i))

/-- The `changeover_cost_vars` list accumulated by the loop: a forward
cost variable for pairs with a positive i→j changeover, then a backward
one for pairs with a positive j→i changeover. -/
def costVarsOf (E : ChangeoverEnv) (pairs : List (Nat × Nat × Nat)) (s : PairSol) : List ℤ :=
  pairs.flatMap (fun p =>
    (if 0 < get_changeover_time E p.2.1 p.2.2 p.1 then [s.costF p.2.1 p.2.2 p.1] else []) ++
    (if 0 < get_changeover_time E p.2.2 p.2.1 p.1 then [s.costB p.2.1 p.2.2 p.1] else []))

/-- The full constraint set of section 6a together with lines 562-564: a
pair constraint per loop iteration, the domain of
`total_changeover_cost`, and — only when `changeover_cost_vars` is
nonempty — the constraint binding it to their sum. -/
def changeoverModelSat (E : ChangeoverEnv) (pairs : List (Nat × Nat × Nat))
    (totalBound : ℤ) (s : PairSol) : Prop :=
  (∀ p ∈ pairs, pairConstraints E s p.1 p.2.1 p.2.2) ∧
  (0 ≤ s.totalChangeoverCost ∧ s.totalChangeoverCost ≤ totalBound) ∧
  (costVarsOf E pairs s ≠ [] → s.totalChangeoverCost = (costVarsOf E pairs s).sum)

/-- Changeover environment with no changeover group on any resource:
every changeover time is 0, so the loop creates no cost variables. -/
def noGroupEnv : ChangeoverEnv where
  resToChangeoverGroup := fun _ => none
  orderToAttrParams := fun _ => []
  attrParamMap := fun _ => none
  changeoverMatrix := fun _ _ _ _ => none
  changeoverStandard := fun _ _ => none
  resAccumulative := fun _ => false

/-- A satisfying assignment for the pair (resource 1, tasks 10 and 11)
under `noGroupEnv` in which `total_changeover_cost` is 7: with no cost
variables the sum constraint is never added, so the variable is free. -/
def freeTotalSol : PairSol where
  start := fun o => if o = 11 then 5 else 0
  stop := fun o => if o = 10 then 5 else 9
  sel := fun _ _ => true
  iBeforeJ := fun _ _ _ => true
  bothOn := fun _ _ _ => true
  costF := fun _ _ _ => 0
  costB := fun _ _ _ => 0
  totalChangeoverCost := 7

/-- A satisfying assignment for the pair (resource 10, tasks 1 and 2)
under `posEnv` (changeover 7 in both directions). -/
def wSol : PairSol where
  start := fun o => if o = 2 then 17 else 0
  stop := fun o => if o = 1 then 10 else 27
  sel := fun _ _ => true
  iBeforeJ := fun _ _ _ => true
  bothOn := fun _ _ _ => true
  costF := fun _ _ _ => 7
  costB := fun _ _ _ => 0
  totalChangeoverCost := 7

/- ### Post-solve changeover recomputation and emission (C7) -/


/-- One entry of a resource's solved schedule list, as collected at
production_scheduler.py lines 656-663: `(start_val, end_val, orders_id)`. -/
abbrev SchedEntry : Type := ℤ × ℤ × Nat

/-- Stable insertion of an entry after every entry with a key not above
its own: the embedding of Python's stable `list.sort(key=lambda x: x[0])`
applied at production_scheduler.py line 667. -/
def insertByStart (e : SchedEntry) : List SchedEntry → List SchedEntry
  | [] => [e]
  | x :: xs => if x.1 ≤ e.1 then x :: insertByStart e xs else e :: x :: xs

/-- Embedding of `resource_schedules[res_id].sort(key=lambda x: x[0])`: a stable sort
by solver start time. -/
def sortResourceSchedule (l : List SchedEntry) : List SchedEntry :=
  l.foldl (fun acc e => insertByStart e acc) []

/-- The `i > 0` arm of the loop at production_scheduler.py lines 670-680:
each subsequent task's setup is the changeover from its predecessor in
the sorted schedule. -/
def setupTimesChain (E : ChangeoverEnv) (res : Nat) :
    SchedEntry → List SchedEntry → List (Nat × ℚ)
  | _, [] => []
  | prev, e :: rest =>
    (e.2.2, get_changeover_time E prev.2.2 e.2.2 res) :: setupTimesChain E res e rest

/-- The `task_setup_times` entries for one resource: sort the schedule by start time;
the first task gets 0, each later one the changeover from its
predecessor. -/
def taskSetupTimes (E : ChangeoverEnv) (res : Nat) (schedule : List SchedEntry) :
    List (Nat × ℚ) :=
  match sortResourceSchedule schedule with
  | [] => []
  | first :: rest => (first.2.2, 0) :: setupTimesChain E res first rest

/-- Embedding of `task_setup_times.get(oid, 0)` (production_scheduler.py line 715). -/
def lookupSetup (tbl : List (Nat × ℚ)) (oid : Nat) : ℚ :=
  match tbl.find? (fun e => e.1 = oid) with
  | none => 0
  | some e => e.2

/-- A timeline record as emitted to the visualisation list (the fields
claim C7 is about; `OpNo`, `OpName`, `IsLate` and `Color` are carried
unchanged alongside and omitted here). -/
structure OutRec where
  orderNo : String
  startTime : ℚ
  endTime : ℚ
  changeoverMins : ℤ
deriving DecidableEq

/-- The emission step for one task (production_scheduler.py lines
714-763), abstracting the working-minutes-to-datetime conversion of the
assigned resource as `conv`: with a positive setup, a "CHANGEOVER" block
from `conv(start_val)` to `conv(start_val + setup)` followed by the
operation from that point to `conv(end_val)`; otherwise the operation
alone. -/
def emitTaskRecords (conv : ℚ → ℚ) (orderNo : String) (startVal endVal : ℤ)
    (setupMins : ℚ) : List OutRec :=
  if 0 < setupMins then
    [{ orderNo := "CHANGEOVER", startTime := conv startVal,
       endTime := conv (startVal + setupMins), changeoverMins := pyTrunc setupMins },
     { orderNo := orderNo, startTime := conv (startVal + setupMins),
       endTime := conv endVal, changeoverMins := 0 }]
  else
    [{ orderNo := orderNo, startTime := conv startVal, endTime := conv endVal,
       changeoverMins := 0 }]

/- ### Data loading (C1): database_handler.get_data and the unpacking -/


/-- The eleven record streams fetched by `database_handler.get_data`
(database_handler.py lines 11-149), plus whether the connection attempt
succeeds.  Individual records are opaque for this claim. -/
structure SourceDb (α : Type) where
  connectionOk : Bool
  orders : List α
  bom : List α
  resources : List α
  groups : List α
  mappings : List α
  orderAttrs : List α
  attributes : List α
  attrParams : List α
  changeoverGroups : List α
  changeoverTimes : List α
  changeoverData : List α

/-- Embedding of `get_data()` (database_handler.py line 149): on success, the 11-tuple
`orders, bom, resources, groups, mappings, order_attrs, attributes,
attr_params, changeover_groups, changeover_times, changeover_data`; a
`pymssql.Error` is re-raised after printing. -/
def get_data {α : Type} (db : SourceDb α) : Except String (List (List α)) :=
  if db.connectionOk then
    .ok [db.orders, db.bom, db.resources, db.groups, db.mappings, db.orderAttrs,
      db.attributes, db.attrParams, db.changeoverGroups, db.changeoverTimes,
      db.changeoverData]
  else .error "DATABASE ERROR"

/-- Python tuple unpacking into the 15 names of production_scheduler.py
line 52 (`raw_orders, ..., break_shift_rel`): succeeds only on a sequence
of exactly 15 items, otherwise raises `ValueError`. -/
def unpack15 {α : Type} (xs : List α) : Option (List α) :=
  match xs with
  | [a1, a2, a3, a4, a5, a6, a7, a8, a9, a10, a11, a12, a13, a14, a15] =>
    some [a1, a2, a3, a4, a5, a6, a7, a8, a9, a10, a11, a12, a13, a14, a15]
  | _ => none

/-- The data-loading step of `solve_schedule` (production_scheduler.py
lines 50-55): any exception from `get_data` or from the unpacking is
caught by the `except` handler, which prints and returns `None` (modelled
as `none`); only a successful unpacking would let the pipeline continue
to model building (`some`). -/
def solve_schedule_load {α : Type} (db : SourceDb α) : Option (List (List α)) :=
  match get_data db with
  | .error _ => none
  | .ok t =>
    match unpack15 t with
    | none => none
    | some fields => some fields

/- ### Results sink (C9, C10): results_writer.save_schedule -/


/-- One entry of the `db_save_list` handed to `save_schedule`
(production_scheduler.py lines 766-784). -/
structure SchedRow where
  id : Nat
  orno : String
  opno : Nat
  startTime : ℤ
  endTime : ℤ
  duration : ℚ
  opName : String
  remainingQuan : ℤ
  setupTime : ℚ
  resourceId : Option Nat
  resourceGroupId : Nat
  belongsToOrder : String
  dueDate : Option ℤ
  orderStart : ℤ
  orderEnd : ℤ
  partNo : String
  product : String
deriving DecidableEq

/-- One row of the Orders table as inserted by `save_schedule`
(results_writer.py lines 29-66): the schedule entry's fields plus the
constant-`NULL` `project` and `task_index` columns. -/
structure DbRow where
  id : Nat
  orno : String
  opno : Nat
  startTime : ℤ
  endTime : ℤ
  project : Option String
  duration : ℚ
  taskIndex : Option Nat
  partNo : String
  product : String
  opName : String
  remainingQuan : ℤ
  setupTime : ℚ
  resourceId : Option Nat
  resourceGroupId : Nat
  belongsToOrder : String
  dueDate : Option ℤ
  orderStart : ℤ
  orderEnd : ℤ
deriving DecidableEq

/-- The tuple built for one row at results_writer.py lines 46-66,
preserving the provided `id`. -/
def toDbRow (r : SchedRow) : DbRow where
  id := r.id
  orno := r.orno
  opno := r.opno
  startTime := r.startTime
  endTime := r.endTime
  project := none
  duration := r.duration
  taskIndex := none
  partNo := r.partNo
  product := r.product
  opName := r.opName
  remainingQuan := r.remainingQuan
  setupTime := r.setupTime
  resourceId := r.resourceId
  resourceGroupId := r.resourceGroupId
  belongsToOrder := r.belongsToOrder
  dueDate := r.dueDate
  orderStart := r.orderStart
  orderEnd := r.orderEnd

/-- Which statement of the save sequence the database rejects with a
`pymssql.Error` (at most the first failing one matters). -/
structure FailSpec where
  failConnect : Bool
  failTruncate : Bool
  failIdentityOn : Bool
  failInsertAt : Option Nat
  failIdentityOff : Bool
  failCommit : Bool

/-- A scoped connection: the committed (visible) table contents, the
transaction's working view, and the number of commits performed.
Statements executed inside the transaction modify only `pending`;
`commit` publishes it; `rollback` discards it. -/
structure Conn where
  committed : List DbRow
  pending : List DbRow
  commits : Nat

/-- Embedding of `cursor.executemany(sql, data_to_insert)`: rows are inserted into the
transaction's view in order until the database raises (if it does). -/
def insertRows (fs : FailSpec) : List DbRow → Nat → Conn → Except Conn Conn
  | [], _, c => .ok c
  | r :: rest, idx, c =>
    if fs.failInsertAt = some idx then .error c
    else insertRows fs rest (idx + 1) { c with pending := c.pending ++ [r] }

/-- The tail of the save sequence after the inserts: IDENTITY_INSERT OFF,
then the single `conn.commit()` (results_writer.py lines 71-73), which
publishes the transaction's view. -/
def finishSave (fs : FailSpec) : Except Conn Conn → Except Conn Conn
  | .error c => .error c
  | .ok c =>
    if fs.failIdentityOff then .error c
    else if fs.failCommit then .error c
    else .ok { c with committed := c.pending, commits := c.commits + 1 }

/-- The statement sequence of `save_schedule` inside the `try` block
(results_writer.py lines 23-73): TRUNCATE, IDENTITY_INSERT ON, the
inserts, IDENTITY_INSERT OFF, then the single commit. -/
def runSaveTransaction (fs : FailSpec) (rows : List DbRow) (c : Conn) : Except Conn Conn :=
  if fs.failTruncate then .error c
  else if fs.failIdentityOn then .error { c with pending := [] }
  else finishSave fs (insertRows fs rows 0 { c with pending := [] })

/-- Outcome of a `save_schedule` call: the table contents visible after
the call, whether every opened connection was closed, whether an
exception escaped to the caller, and how many commits ran. -/
structure SaveResult where
  table : List DbRow
  connClosed : Bool
  raised : Bool
  commits : Nat

/-- Embedding of `save_schedule(schedule_data)` (results_writer.py lines 5-80): connect
(a failure there is caught and printed, with no connection to close);
run the transaction; on a `pymssql.Error` print, `conn.rollback()` and
fall through; `finally: conn.close()`.  No exception is re-raised on any
path. -/
def save_schedule (fs : FailSpec) (initTable : List DbRow) (scheduleData : List SchedRow) :
    SaveResult :=
  if fs.failConnect then
    { table := initTable, connClosed := true, raised := false, commits := 0 }
  else
    match runSaveTransaction fs (scheduleData.map toDbRow)
        { committed := initTable, pending := initTable, commits := 0 } with
    | .ok c =>
      { table := c.committed, connClosed := true, raised := false, commits := c.commits }
    | .error c =>
      { table := { c with pending := c.committed }.committed, connClosed := true,
        raised := false, commits := { c with pending := c.committed }.commits }

/-- The `FailSpec` of a database that accepts every statement. -/
def noFail : FailSpec where
  failConnect := false
  failTruncate := false
  failIdentityOn := false
  failInsertAt := none
  failIdentityOff := false
  failCommit := false

/-- The `FailSpec` of a database that rejects the first row insert. -/
def failingSink : FailSpec where
  failConnect := false
  failTruncate := false
  failIdentityOn := false
  failInsertAt := some 0
  failIdentityOff := false
  failCommit := false

/-- A concrete schedule entry. -/
def sampleRow : SchedRow where
  id := 1
  orno := "ORD1"
  opno := 10
  startTime := 0
  endTime := 480
  duration := 1
  opName := "CUT"
  remainingQuan := 5
  setupTime := 0
  resourceId := some 2
  resourceGroupId := 4
  belongsToOrder := "ORD0"
  dueDate := none
  orderStart := 0
  orderEnd := 480
  partNo := "P1"
  product := "Bike"

/- ### Lemmas about the changeover engine -/

theorem le_foldl_max (t : List ℚ) : ∀ a : ℚ, a ≤ t.foldl max a := by
  induction t with
  | nil => intro a; exact le_refl a
  | cons b t ih =>
    intro a
    exact le_trans (le_max_left a b) (ih (max a b))

theorem pyMax_nonneg (l : List ℚ) (hne : l ≠ []) (h : ∀ x ∈ l, 0 ≤ x) : 0 ≤ pyMax l := by
  cases l with
  | nil => exact absurd rfl hne
  | cons a t =>
    have ha : 0 ≤ a := h a (List.mem_cons_self a t)
    exact le_trans ha (le_foldl_max t a)

theorem innerTime_nonneg (E : ChangeoverEnv) (g tAttr tp fp : Nat) (x : ℚ)
    (hm : ∀ ga a f t v, E.changeoverMatrix ga a f t = some v → 0 ≤ v)
    (hs : ∀ ga a v, E.changeoverStandard ga a = some v → 0 ≤ v)
    (h : innerTime E g tAttr tp fp = some x) : 0 ≤ x := by
  unfold innerTime at h
  cases hfm : E.attrParamMap fp with
  | none => rw [hfm] at h; cases h
  | some fpRec =>
    rw [hfm] at h
    by_cases hattr : fpRec.attributeId ≠ tAttr
    · simp [hattr] at h
    · simp only [hattr, if_false] at h
      by_cases heq : fp = tp
      · simp only [heq, if_true] at h
        cases h; exact le_refl 0
      · simp only [heq, if_false] at h
        cases hmx : E.changeoverMatrix g tAttr fp tp with
        | some v =>
          rw [hmx] at h
          cases h
          exact hm g tAttr fp tp x hmx
        | none =>
          rw [hmx] at h
          exact hs g tAttr x h

theorem collectTimes_nonneg (E : ChangeoverEnv) (g : Nat)
    (hm : ∀ ga a f t v, E.changeoverMatrix ga a f t = some v → 0 ≤ v)
    (hs : ∀ ga a v, E.changeoverStandard ga a = some v → 0 ≤ v)
    (FP TP : List Nat) : ∀ x ∈ collectTimes E g FP TP, 0 ≤ x := by
  intro x hx
  unfold collectTimes at hx
  rw [List.mem_flatMap] at hx
  obtain ⟨tp, _, hx⟩ := hx
  unfold outerTimes at hx
  cases htp : E.attrParamMap tp with
  | none => rw [htp] at hx; simp at hx
  | some tpRec =>
    rw [htp] at hx
    rw [List.mem_filterMap] at hx
    obtain ⟨fp, _, hfp⟩ := hx
    exact innerTime_nonneg E g tpRec.attributeId tp fp x hm hs hfp

/-- Claim C8 (amended): the changeover computation returns a value ≥ 0
whenever every entry of the changeover matrix and of the standard-times
table is ≥ 0; with a negative table entry the result can be negative (see
the counterexample). -/
theorem changeover_nonneg (E : ChangeoverEnv)
    (hm : ∀ g a f t v, E.changeoverMatrix g a f t = some v → 0 ≤ v)
    (hs : ∀ g a v, E.changeoverStandard g a = some v → 0 ≤ v)
    (fromOrderId toOrderId resourceId : Nat) :
    0 ≤ get_changeover_time E fromOrderId toOrderId resourceId := by
  unfold get_changeover_time
  cases hg : E.resToChangeoverGroup resourceId with
  | none => exact le_refl 0
  | some g =>
    by_cases hempty : E.orderToAttrParams fromOrderId = [] ∨ E.orderToAttrParams toOrderId = []
    · simp [hempty]
    · simp only [hempty, if_false]
      have hnn : ∀ x ∈ collectTimes E g (E.orderToAttrParams fromOrderId)
          (E.orderToAttrParams toOrderId), 0 ≤ x :=
        collectTimes_nonneg E g hm hs _ _
      by_cases ht : collectTimes E g (E.orderToAttrParams fromOrderId)
          (E.orderToAttrParams toOrderId) = []
      · simp [ht]
      · simp only [ht, if_false]
        by_cases hacc : E.resAccumulative resourceId
        · simp only [hacc, if_true]
          exact pyMax_nonneg _ ht hnn
        · simp only [hacc, if_false]
          exact List.sum_nonneg hnn

/-- Witness for `changeover_nonneg` at the concrete environment `posEnv`. -/
theorem changeover_nonneg_witness : 0 ≤ get_changeover_time posEnv 1 2 10 :=
  changeover_nonneg posEnv
    (fun g a f t v h => by
      simp only [posEnv, Option.some.injEq] at h
      rw [← h]; norm_num)
    (fun g a v h => by
      simp only [posEnv, Option.some.injEq] at h
      rw [← h]; norm_num)
    1 2 10

/-- Claim C8 counterexample: with a matrix entry of -5 the computation
returns -5, so the contract `changeover_minutes ≥ 0` fails on the code. -/
theorem changeover_negative_result : get_changeover_time negEnv 1 2 10 < 0 := by
  have h : get_changeover_time negEnv 1 2 10 = -5 := by
    simp [get_changeover_time, negEnv, collectTimes, outerTimes, innerTime]
  rw [h]; norm_num

theorem filterMap_innerTime_eq (E : ChangeoverEnv) (g : Nat) (attrOf : Nat → Nat) (t : Nat)
    (FP : List Nat) (hFP : ∀ p ∈ FP, E.attrParamMap p = some ⟨attrOf p⟩) :
    FP.filterMap (innerTime E g (attrOf t) t) =
      (FP.filter (fun f => attrOf f = attrOf t)).filterMap
        (specContribution g attrOf E.changeoverMatrix E.changeoverStandard t) := by
  induction FP with
  | nil => rfl
  | cons f rest ih =>
    have hf : E.attrParamMap f = some ⟨attrOf f⟩ := hFP f (List.mem_cons_self f rest)
    have hrest : ∀ p ∈ rest, E.attrParamMap p = some ⟨attrOf p⟩ :=
      fun p hp => hFP p (List.mem_cons_of_mem f hp)
    rw [List.filterMap_cons, List.filter_cons]
    simp only [decide_eq_true_eq]
    by_cases hattr : attrOf f = attrOf t
    · rw [if_pos hattr, List.filterMap_cons]
      have hv : innerTime E g (attrOf t) t f =
          specContribution g attrOf E.changeoverMatrix E.changeoverStandard t f := by
        unfold innerTime specContribution
        rw [hf]
        simp [hattr]
      rw [hv, ih hrest]
    · rw [if_neg hattr, ← ih hrest]
      have hskip : innerTime E g (attrOf t) t f = none := by
        unfold innerTime
        rw [hf]
        simp [hattr]
      rw [hskip]

theorem collectTimes_eq_specContributions (E : ChangeoverEnv) (g : Nat) (attrOf : Nat → Nat)
    (FP TP : List Nat)
    (hFP : ∀ p ∈ FP, E.attrParamMap p = some ⟨attrOf p⟩)
    (hTP : ∀ p ∈ TP, E.attrParamMap p = some ⟨attrOf p⟩) :
    collectTimes E g FP TP =
      specContributions g attrOf E.changeoverMatrix E.changeoverStandard FP TP := by
  induction TP with
  | nil => rfl
  | cons t rest ihT =>
    have ht : E.attrParamMap t = some ⟨attrOf t⟩ := hTP t (List.mem_cons_self t rest)
    have hrest : ∀ p ∈ rest, E.attrParamMap p = some ⟨attrOf p⟩ :=
      fun p hp => hTP p (List.mem_cons_of_mem t hp)
    unfold collectTimes specContributions
    rw [List.flatMap_cons, List.flatMap_cons]
    have hhead : outerTimes E g FP t =
        (FP.filter (fun f => attrOf f = attrOf t)).filterMap
          (specContribution g attrOf E.changeoverMatrix E.changeoverStandard t) := by
      unfold outerTimes
      rw [ht]
      exact filterMap_innerTime_eq E g attrOf t FP hFP
    rw [hhead]
    congr 1
    exact ihT hrest

/-- Claim C2: for attribute data in which every referenced attribute
parameter resolves (the spec's data model makes `param_id → attribute_id`
total), `get_changeover_time` computes exactly the spec's algorithm of
section 4.2: 0 without a changeover group, with an empty parameter list or
with no contribution; otherwise the max of the contributions on an
accumulative resource and their sum on a non-accumulative one. -/
theorem changeover_matches_spec (E : ChangeoverEnv) (attrOf : Nat → Nat)
    (fromOrderId toOrderId resourceId : Nat)
    (hres : ∀ p ∈ E.orderToAttrParams fromOrderId ++ E.orderToAttrParams toOrderId,
      E.attrParamMap p = some ⟨attrOf p⟩) :
    get_changeover_time E fromOrderId toOrderId resourceId =
      specChangeoverMinutes (E.resToChangeoverGroup resourceId) attrOf
        E.changeoverMatrix E.changeoverStandard (E.resAccumulative resourceId)
        (E.orderToAttrParams fromOrderId) (E.orderToAttrParams toOrderId) := by
  have hFP : ∀ p ∈ E.orderToAttrParams fromOrderId, E.attrParamMap p = some ⟨attrOf p⟩ :=
    fun p hp => hres p (List.mem_append_left _ hp)
  have hTP : ∀ p ∈ E.orderToAttrParams toOrderId, E.attrParamMap p = some ⟨attrOf p⟩ :=
    fun p hp => hres p (List.mem_append_right _ hp)
  unfold get_changeover_time specChangeoverMinutes
  cases hg : E.resToChangeoverGroup resourceId with
  | none => rfl
  | some g =>
    by_cases hempty : E.orderToAttrParams fromOrderId = [] ∨ E.orderToAttrParams toOrderId = []
    · simp [hempty]
    · simp only [hempty, if_false]
      rw [collectTimes_eq_specContributions E g attrOf _ _ hFP hTP]

/-- Witness for `changeover_matches_spec` at the concrete environment
`posEnv`, whose attribute parameters all resolve to attribute 5. -/
theorem changeover_matches_spec_witness :
    get_changeover_time posEnv 1 2 10 =
      specChangeoverMinutes (posEnv.resToChangeoverGroup 10) (fun _ => 5)
        posEnv.changeoverMatrix posEnv.changeoverStandard (posEnv.resAccumulative 10)
        (posEnv.orderToAttrParams 1) (posEnv.orderToAttrParams 2) :=
  changeover_matches_spec posEnv (fun _ => 5) 1 2 10 (fun _ _ => rfl)

/- ### Lemmas about the calendar engine -/


/-- Claim C6: the working-minutes-per-day computation returns 0 for a
resource with no schedule assigned, 0 for a null weekday entry, and
otherwise the gross shift length (with overnight wraparound) minus the
attached breaks (same wraparound), clamped to at least 0. -/
theorem working_minutes_cases (E : CalendarEnv) (resourceId date : Nat) :
    (E.resToSchedule resourceId = none →
      get_resource_working_minutes_for_date E resourceId date = 0) ∧
    (∀ sid sch, E.resToSchedule resourceId = some sid → sid ≠ 0 →
      E.scheduleMap sid = some sch → sch.day (date % 7) = none →
      get_resource_working_minutes_for_date E resourceId date = 0) ∧
    (∀ sid sch shid shift, E.resToSchedule resourceId = some sid → sid ≠ 0 →
      E.scheduleMap sid = some sch → sch.day (date % 7) = some shid →
      E.shiftMap shid = some shift →
      get_resource_working_minutes_for_date E resourceId date =
        max 0 ((let gross := time_to_minutes shift.endTime - time_to_minutes shift.startTime
                if gross < 0 then gross + 1440 else gross) -
               ((E.shiftBreaks shid).map breakMinutes).sum)) := by
  refine ⟨?_, ?_, ?_⟩
  · intro h
    unfold get_resource_working_minutes_for_date
    rw [h]
  · intro sid sch h1 h2 h3 h4
    unfold get_resource_working_minutes_for_date
    rw [h1]
    simp [h2, h3, h4]
  · intro sid sch shid shift h1 h2 h3 h4 h5
    unfold get_resource_working_minutes_for_date
    rw [h1]
    simp [h2, h3, h4, h5]

/-- Witness for `working_minutes_cases` on the concrete environment
`calEnvW`: no schedule, null Saturday, and a Monday shift of
510 − 30 = 480 minutes. -/
theorem working_minutes_cases_witness :
    get_resource_working_minutes_for_date calEnvW 1 0 = 0 ∧
    get_resource_working_minutes_for_date calEnvW 2 5 = 0 ∧
    get_resource_working_minutes_for_date calEnvW 2 7 = 480 := by
  refine ⟨(working_minutes_cases calEnvW 1 0).1 rfl, ?_, ?_⟩
  · exact (working_minutes_cases calEnvW 2 5).2.1 3
      ⟨fun w => if w = 0 then some 4 else none⟩ rfl (by norm_num) rfl rfl
  · have h := (working_minutes_cases calEnvW 2 7).2.2 3
      ⟨fun w => if w = 0 then some 4 else none⟩ 4 ⟨some ⟨8, 0⟩, some ⟨16, 30⟩⟩
      rfl (by norm_num) rfl rfl rfl
    rw [h]
    simp [calEnvW, time_to_minutes, breakMinutes]

theorem findWorkingDay_none_of_no_work (E : CalendarEnv) (resourceId : Nat)
    (h : ∀ d, get_resource_working_minutes_for_date E resourceId d = 0) :
    ∀ fuel date, findWorkingDay E resourceId fuel date = none := by
  intro fuel
  induction fuel with
  | zero => intro date; rfl
  | succ n ih =>
    intro date
    unfold findWorkingDay
    rw [if_pos (h date)]
    exact ih (date + 1)

/-- Claim C4 (amended): the day-skip loop of the calendar materialisation
is unbounded — the code has no look-ahead horizon and no CalendarOverflow
error — so for a resource with zero working minutes on every day the
conversion never returns, however much fuel (look-ahead days) it is
given. -/
theorem materialise_unbounded (E : CalendarEnv) (resourceId : Nat)
    (h : ∀ d, get_resource_working_minutes_for_date E resourceId d = 0)
    (fuel startDate : Nat) (workedMinutes : ℤ) :
    working_minutes_to_real_time_for_resource E resourceId fuel startDate workedMinutes
      = none := by
  unfold working_minutes_to_real_time_for_resource
  rw [findWorkingDay_none_of_no_work E resourceId h fuel startDate]
  by_cases hw : workedMinutes = 0 <;> simp [hw]

/-- Witness for `materialise_unbounded` on `noWorkEnv`. -/
theorem materialise_unbounded_witness :
    (∀ d, get_resource_working_minutes_for_date noWorkEnv 3 d = 0) ∧
    working_minutes_to_real_time_for_resource noWorkEnv 3 5 0 480 = none :=
  ⟨fun _ => rfl, materialise_unbounded noWorkEnv 3 (fun _ => rfl) 5 0 480⟩

/-- Claim C4 counterexample: the claim says the loop is bounded by a
730-day look-ahead horizon whose excess fails with a CalendarOverflow
error; on the code, after 1000 days of look-ahead the loop is still
running (no result and no error exists), for a resource with no working
day. -/
theorem calendar_no_overflow_bound :
    working_minutes_to_real_time_for_resource noWorkEnv 3 1000 0 0 = none := by
  have h := findWorkingDay_none_of_no_work noWorkEnv 3 (fun _ => rfl) 1000 0
  unfold working_minutes_to_real_time_for_resource
  rw [h]
  simp

/- ### Lemmas about the model builder -/

theorem pyRound_nonpos (q : ℚ) (hq : q ≤ 0) : pyRound q ≤ 0 := by
  unfold pyRound
  have hf : ⌊q⌋ ≤ 0 := Int.floor_nonpos hq
  by_cases h1 : q - ⌊q⌋ < 1/2
  · rw [if_pos h1]
    exact hf
  · have hne : ⌊q⌋ ≠ 0 := by
      intro h0
      apply h1
      have hq0 : (0 : ℚ) ≤ q := (Int.floor_eq_zero_iff.mp h0).1
      have hq' : q = 0 := le_antisymm hq hq0
      rw [hq']
      norm_num
    rw [if_neg h1]
    split_ifs <;> omega

/-- Claim C5 (amended): the model binds the setup variable to 0 and the
duration variable to `setup + process_minutes`, where `process_minutes`
is `int(process_time_days * 1440)` — truncation toward zero, not
rounding — and no clamp applies to the model duration (the 1-minute floor
of `localClampedDuration` is computed into a local the model never
uses), so an operation with a tiny positive process time gets model
duration 0. -/
theorem op_duration_characterisation (horizon : ℤ) (processTimeDays : Option ℚ) (v : OpVars)
    (h : opDurationConstraints horizon processTimeDays v) :
    v.setup = 0 ∧ v.duration = convert_days_to_working_minutes processTimeDays := by
  obtain ⟨-, -, hdur, hsetup⟩ := h
  refine ⟨hsetup, ?_⟩
  rw [hdur, hsetup, zero_add]

/-- Witness for `op_duration_characterisation`: a one-day operation
(1440 model minutes). -/
theorem op_duration_characterisation_witness :
    (⟨0, 1440⟩ : OpVars).setup = 0 ∧
    (⟨0, 1440⟩ : OpVars).duration = convert_days_to_working_minutes (some 1) :=
  op_duration_characterisation 100000 (some 1) ⟨0, 1440⟩
    (by
      refine ⟨⟨le_refl 0, by norm_num⟩, ⟨by norm_num, by norm_num⟩, ?_, rfl⟩
      show (1440 : ℤ) = 0 + convert_days_to_working_minutes (some 1)
      norm_num [convert_days_to_working_minutes, pyTrunc])

/-- Claim C5 counterexample: an operation with process time 1/10000 days
(strictly positive) satisfies all its model constraints with duration 0,
below the claimed 1-minute floor; and `process_minutes` uses truncation,
not rounding: at 11/10000 days the code computes 1 where `round` gives
2. -/
theorem duration_clamp_counterexample :
    opDurationConstraints 100000 (some (1/10000)) ⟨0, 0⟩ ∧
    (0 : ℚ) < 1/10000 ∧
    (⟨0, 0⟩ : OpVars).duration < 1 ∧
    pyTrunc ((11/10000 : ℚ) * 1440) = 1 ∧
    pyRound ((11/10000 : ℚ) * 1440) = 2 := by
  refine ⟨⟨⟨le_refl 0, by norm_num⟩, ⟨le_refl 0, by norm_num⟩, ?_, rfl⟩, by norm_num,
    by norm_num, ?_, ?_⟩
  · show (0 : ℤ) = 0 + convert_days_to_working_minutes (some (1/10000))
    have : convert_days_to_working_minutes (some (1/10000)) = 0 := by
      show pyTrunc ((1/10000 : ℚ) * 1440) = 0
      norm_num [pyTrunc]
    rw [this]
    norm_num
  · norm_num [pyTrunc]
  · have hfl : ⌊(11/10000 : ℚ) * 1440⌋ = 1 := by norm_num
    norm_num [pyRound, hfl]

theorem bothOn_of_sel (E : ChangeoverEnv) (s : PairSol) (r i j : Nat)
    (hc : pairConstraints E s r i j)
    (hi : s.sel i r = true) (hj : s.sel j r = true) : s.bothOn i j r = true := by
  cases hbo : s.bothOn i j r
  · rcases hc.2.1 hbo with h | h
    · rw [hi] at h; exact Bool.noConfusion h
    · rw [hj] at h; exact Bool.noConfusion h
  · rfl

/-- Claim C3 (amended): every solution of the pairwise changeover
constraints satisfies, for each listed pair: the gap constraints in both
orientations (with the rounded changeover minutes), the cost-variable
semantics for each orientation whose changeover is positive (equal to the
changeover when that orientation is active, 0 otherwise), and — provided
at least one cost variable exists — `total_changeover_cost` equals their
sum.  When no changeover is positive the sum constraint is never added
and `total_changeover_cost` is only bounded, not fixed (see the
counterexample). -/
theorem changeover_constraints_enforced (E : ChangeoverEnv) (pairs : List (Nat × Nat × Nat))
    (totalBound : ℤ) (s : PairSol) (hs : changeoverModelSat E pairs totalBound s) :
    (∀ r i j, (r, i, j) ∈ pairs →
      (s.sel i r = true → s.sel j r = true → s.iBeforeJ i j r = true →
        s.stop i + changeoverInt E i j r ≤ s.start j) ∧
      (s.sel i r = true → s.sel j r = true → s.iBeforeJ i j r = false →
        s.stop j + changeoverInt E j i r ≤ s.start i) ∧
      (0 < get_changeover_time E i j r →
        (s.sel i r = true → s.sel j r = true → s.iBeforeJ i j r = true →
          s.costF i j r = changeoverInt E i j r) ∧
        (s.sel i r = false ∨ s.sel j r = false ∨ s.iBeforeJ i j r = false →
          s.costF i j r = 0)) ∧
      (0 < get_changeover_time E j i r →
        (s.sel i r = true → s.sel j r = true → s.iBeforeJ i j r = false →
          s.costB i j r = changeoverInt E j i r) ∧
        (s.sel i r = false ∨ s.sel j r = false ∨ s.iBeforeJ i j r = true →
          s.costB i j r = 0))) ∧
    (costVarsOf E pairs s ≠ [] → s.totalChangeoverCost = (costVarsOf E pairs s).sum) := by
  obtain ⟨hpairs, -, htotal⟩ := hs
  refine ⟨?_, htotal⟩
  intro r i j hmem
  have hc : pairConstraints E s r i j := hpairs (r, i, j) hmem
  obtain ⟨hb1, hb2, hpos, hzero, hposB, hzeroB⟩ := hc
  have hboth := bothOn_of_sel E s r i j ⟨hb1, hb2, hpos, hzero, hposB, hzeroB⟩
  refine ⟨?_, ?_, ?_, ?_⟩
  · intro hi hj hib
    by_cases hcij : 0 < get_changeover_time E i j r
    · exact (hpos hcij).1 (hboth hi hj) hib
    · have h1 := hzero hcij (hboth hi hj) hib
      have h2 : changeoverInt E i j r ≤ 0 :=
        pyRound_nonpos _ (le_of_not_lt hcij)
      omega
  · intro hi hj hib
    by_cases hcji : 0 < get_changeover_time E j i r
    · exact (hposB hcji).1 (hboth hi hj) hib
    · have h1 := hzeroB hcji (hboth hi hj) hib
      have h2 : changeoverInt E j i r ≤ 0 :=
        pyRound_nonpos _ (le_of_not_lt hcji)
      omega
  · intro hcij
    refine ⟨fun hi hj hib => (hpos hcij).2.2.1 (hboth hi hj) hib, ?_⟩
    rintro (h | h | h)
    · cases hbo : s.bothOn i j r
      · exact (hpos hcij).2.2.2.1 hbo
      · have := (hb1 hbo).1
        rw [h] at this; exact Bool.noConfusion this
    · cases hbo : s.bothOn i j r
      · exact (hpos hcij).2.2.2.1 hbo
      · have := (hb1 hbo).2
        rw [h] at this; exact Bool.noConfusion this
    · exact (hpos hcij).2.2.2.2 h
  · intro hcji
    refine ⟨fun hi hj hib => (hposB hcji).2.2.1 (hboth hi hj) hib, ?_⟩
    rintro (h | h | h)
    · cases hbo : s.bothOn i j r
      · exact (hposB hcji).2.2.2.1 hbo
      · have := (hb1 hbo).1
        rw [h] at this; exact Bool.noConfusion this
    · cases hbo : s.bothOn i j r
      · exact (hposB hcji).2.2.2.1 hbo
      · have := (hb1 hbo).2
        rw [h] at this; exact Bool.noConfusion this
    · exact (hposB hcji).2.2.2.2 h

/-- Witness for `changeover_constraints_enforced`: the pair (resource 10,
tasks 1, 2) under `posEnv` with the satisfying assignment `wSol`. -/
theorem changeover_constraints_enforced_witness :
    wSol.stop 1 + changeoverInt posEnv 1 2 10 ≤ wSol.start 2 ∧
    wSol.costF 1 2 10 = changeoverInt posEnv 1 2 10 ∧
    wSol.totalChangeoverCost = (costVarsOf posEnv [(10, 1, 2)] wSol).sum := by
  have h12 : get_changeover_time posEnv 1 2 10 = 7 := by
    simp [get_changeover_time, posEnv, collectTimes, outerTimes, innerTime]
  have h21 : get_changeover_time posEnv 2 1 10 = 7 := by
    simp [get_changeover_time, posEnv, collectTimes, outerTimes, innerTime]
  have hfl7 : ⌊(7 : ℚ)⌋ = 7 := by norm_num
  have hci : changeoverInt posEnv 1 2 10 = 7 := by
    unfold changeoverInt
    rw [h12]
    norm_num [pyRound, hfl7]
  have hcj : changeoverInt posEnv 2 1 10 = 7 := by
    unfold changeoverInt
    rw [h21]
    norm_num [pyRound, hfl7]
  have hs : changeoverModelSat posEnv [(10, 1, 2)] 100000 wSol := by
    refine ⟨?_, ⟨by norm_num [wSol], by norm_num [wSol]⟩, ?_⟩
    · intro p hp
      simp only [List.mem_singleton] at hp
      subst hp
      unfold pairConstraints
      refine ⟨fun _ => ⟨rfl, rfl⟩, ?_, ?_, ?_, ?_, ?_⟩
      · intro h; simp [wSol] at h
      · intro _
        refine ⟨?_, ⟨?_, ?_⟩, ?_, ?_, ?_⟩
        · intro _ _; rw [hci]; norm_num [wSol]
        · norm_num [wSol]
        · rw [hci]; norm_num [wSol]
        · intro _ _; rw [hci]; norm_num [wSol]
        · intro h; simp [wSol] at h
        · intro h; simp [wSol] at h
      · intro hcont
        rw [h12] at hcont
        exact absurd (by norm_num : (0 : ℚ) < 7) hcont
      · intro _
        refine ⟨?_, ⟨?_, ?_⟩, ?_, ?_, ?_⟩
        · intro _ h; simp [wSol] at h
        · norm_num [wSol]
        · rw [hcj]; norm_num [wSol]
        · intro _ h; simp [wSol] at h
        · intro h; simp [wSol] at h
        · intro _; rfl
      · intro hcont
        rw [h21] at hcont
        exact absurd (by norm_num : (0 : ℚ) < 7) hcont
    · intro _
      show wSol.totalChangeoverCost = _
      simp [costVarsOf, h12, h21, wSol]
  have h := changeover_constraints_enforced posEnv [(10, 1, 2)] 100000 wSol hs
  have hpair := h.1 10 1 2 (List.mem_singleton.mpr rfl)
  refine ⟨hpair.1 rfl rfl rfl, ?_, ?_⟩
  · exact (hpair.2.2.1 (by rw [h12]; norm_num)).1 rfl rfl rfl
  · refine h.2 ?_
    simp [costVarsOf, h12, h21]

/-- Claim C3 counterexample: under `noGroupEnv` no cost variable is
created, so the constraint `total_changeover_cost == sum(...)` is never
added (the Python guard `if changeover_cost_vars:`) and an assignment
with `total_changeover_cost = 7 ≠ 0 = sum` satisfies the whole model. -/
theorem total_changeover_unconstrained :
    changeoverModelSat noGroupEnv [(1, 10, 11)] 100000 freeTotalSol ∧
    freeTotalSol.totalChangeoverCost ≠ (costVarsOf noGroupEnv [(1, 10, 11)] freeTotalSol).sum := by
  have hz : get_changeover_time noGroupEnv 10 11 1 = 0 := rfl
  have hz' : get_changeover_time noGroupEnv 11 10 1 = 0 := rfl
  have hcv : costVarsOf noGroupEnv [(1, 10, 11)] freeTotalSol = [] := by
    simp [costVarsOf, hz, hz']
  constructor
  · refine ⟨?_, ⟨by norm_num [freeTotalSol], by norm_num [freeTotalSol]⟩, ?_⟩
    · intro p hp
      simp only [List.mem_singleton] at hp
      subst hp
      unfold pairConstraints
      refine ⟨fun _ => ⟨rfl, rfl⟩, ?_, ?_, ?_, ?_, ?_⟩
      · intro h; simp [freeTotalSol] at h
      · intro hcont
        rw [hz] at hcont
        exact absurd hcont (by norm_num)
      · intro _ _; norm_num [freeTotalSol]
      · intro hcont
        rw [hz'] at hcont
        exact absurd hcont (by norm_num)
      · intro _ _ h; simp [freeTotalSol] at h
    · intro h
      exact absurd hcv h
  · rw [hcv]
    norm_num [freeTotalSol]

/- ### Lemmas about the post-solve phase -/

theorem insertByStart_perm (e : SchedEntry) (l : List SchedEntry) :
    List.Perm (insertByStart e l) (e :: l) := by
  induction l with
  | nil => exact List.Perm.refl [e]
  | cons x xs ih =>
    unfold insertByStart
    by_cases h : x.1 ≤ e.1
    · rw [if_pos h]
      exact (ih.cons x).trans (List.Perm.swap e x xs)
    · rw [if_neg h]

theorem insertByStart_sorted (e : SchedEntry) (l : List SchedEntry)
    (h : l.Pairwise (fun a b : SchedEntry => a.1 ≤ b.1)) :
    (insertByStart e l).Pairwise (fun a b : SchedEntry => a.1 ≤ b.1) := by
  induction l with
  | nil => simp [insertByStart]
  | cons x xs ih =>
    rcases List.pairwise_cons.mp h with ⟨hx, hxs⟩
    unfold insertByStart
    by_cases hle : x.1 ≤ e.1
    · rw [if_pos hle]
      refine List.pairwise_cons.mpr ⟨?_, ih hxs⟩
      intro b hb
      have hmem := (insertByStart_perm e xs).mem_iff.mp hb
      rcases List.mem_cons.mp hmem with rfl | hbxs
      · exact hle
      · exact hx b hbxs
    · rw [if_neg hle]
      refine List.pairwise_cons.mpr ⟨?_, h⟩
      intro b hb
      rcases List.mem_cons.mp hb with rfl | hbxs
      · exact le_of_not_le hle
      · exact le_trans (le_of_not_le hle) (hx b hbxs)

theorem foldl_insertByStart_perm (l : List SchedEntry) :
    ∀ acc : List SchedEntry,
      List.Perm (l.foldl (fun acc e => insertByStart e acc) acc) (acc ++ l) := by
  induction l with
  | nil => intro acc; simp
  | cons e rest ih =>
    intro acc
    have h1 : List.Perm (rest.foldl (fun acc e => insertByStart e acc) (insertByStart e acc))
        (insertByStart e acc ++ rest) := ih (insertByStart e acc)
    have h2 : List.Perm (insertByStart e acc ++ rest) ((e :: acc) ++ rest) :=
      (insertByStart_perm e acc).append_right rest
    have h3 : List.Perm (acc ++ e :: rest) (e :: (acc ++ rest)) := List.perm_middle
    exact ((h1.trans h2).trans (List.Perm.refl _)).trans h3.symm

theorem foldl_insertByStart_sorted (l : List SchedEntry) :
    ∀ acc : List SchedEntry, acc.Pairwise (fun a b : SchedEntry => a.1 ≤ b.1) →
      (l.foldl (fun acc e => insertByStart e acc) acc).Pairwise
        (fun a b : SchedEntry => a.1 ≤ b.1) := by
  induction l with
  | nil => intro acc h; exact h
  | cons e rest ih =>
    intro acc h
    exact ih (insertByStart e acc) (insertByStart_sorted e acc h)

theorem setupTimesChain_eq_zip (E : ChangeoverEnv) (res : Nat) (rest : List SchedEntry) :
    ∀ prev : SchedEntry,
      setupTimesChain E res prev rest =
        (rest.zip (prev :: rest)).map
          (fun pr => (pr.1.2.2, get_changeover_time E pr.2.2.2 pr.1.2.2 res)) := by
  induction rest with
  | nil => intro prev; rfl
  | cons e rest ih =>
    intro prev
    unfold setupTimesChain
    rw [List.zip_cons_cons, List.map_cons, ih e]

/-- Claim C7: after solving, each resource's assignments are sorted by
solver start time ascending (a permutation of the collected list); the
first gets setup 0 and each subsequent one the changeover from its
predecessor; and the emitted timeline holds a "CHANGEOVER" pseudo-record
immediately before the operation exactly when the looked-up setup is
positive, with the operation record starting where the changeover block
ends. -/
theorem post_solve_setup_and_emission (E : ChangeoverEnv) (res : Nat)
    (l : List SchedEntry) (conv : ℚ → ℚ) (orderNo : String) (oid : Nat)
    (startVal endVal : ℤ) :
    (sortResourceSchedule l).Pairwise (fun a b : SchedEntry => a.1 ≤ b.1) ∧
    List.Perm (sortResourceSchedule l) l ∧
    (∀ first rest, sortResourceSchedule l = first :: rest →
      taskSetupTimes E res l =
        (first.2.2, (0 : ℚ)) :: (rest.zip (first :: rest)).map
          (fun pr => (pr.1.2.2, get_changeover_time E pr.2.2.2 pr.1.2.2 res))) ∧
    (0 < lookupSetup (taskSetupTimes E res l) oid →
      emitTaskRecords conv orderNo startVal endVal (lookupSetup (taskSetupTimes E res l) oid) =
        [{ orderNo := "CHANGEOVER", startTime := conv startVal,
           endTime := conv (startVal + lookupSetup (taskSetupTimes E res l) oid),
           changeoverMins := pyTrunc (lookupSetup (taskSetupTimes E res l) oid) },
         { orderNo := orderNo,
           startTime := conv (startVal + lookupSetup (taskSetupTimes E res l) oid),
           endTime := conv endVal, changeoverMins := 0 }]) ∧
    (¬ 0 < lookupSetup (taskSetupTimes E res l) oid →
      emitTaskRecords conv orderNo startVal endVal (lookupSetup (taskSetupTimes E res l) oid) =
        [{ orderNo := orderNo, startTime := conv startVal, endTime := conv endVal,
           changeoverMins := 0 }]) := by
  refine ⟨?_, ?_, ?_, ?_, ?_⟩
  · exact foldl_insertByStart_sorted l [] List.Pairwise.nil
  · have h := foldl_insertByStart_perm l []
    simpa [sortResourceSchedule] using h
  · intro first rest hsort
    unfold taskSetupTimes
    rw [hsort]
    show (first.2.2, (0 : ℚ)) :: setupTimesChain E res first rest = _
    rw [setupTimesChain_eq_zip]
  · intro h
    unfold emitTaskRecords
    rw [if_pos h]
  · intro h
    unfold emitTaskRecords
    rw [if_neg h]

/-- Witness for `post_solve_setup_and_emission`: two tasks on resource 10
under `posEnv`; the later-starting task 2 gets setup 7 and its timeline
entry is preceded by a CHANGEOVER block. -/
theorem post_solve_setup_and_emission_witness :
    taskSetupTimes posEnv 10 [((5 : ℤ), (9 : ℤ), 2), ((0 : ℤ), (4 : ℤ), 1)] =
      [(1, (0 : ℚ)), (2, (7 : ℚ))] ∧
    emitTaskRecords (fun q => q + 100) "A" 5 9
        (lookupSetup (taskSetupTimes posEnv 10 [((5 : ℤ), (9 : ℤ), 2), ((0 : ℤ), (4 : ℤ), 1)]) 2) =
      [{ orderNo := "CHANGEOVER", startTime := 105, endTime := 112, changeoverMins := 7 },
       { orderNo := "A", startTime := 112, endTime := 109, changeoverMins := 0 }] := by
  have h12 : get_changeover_time posEnv 1 2 10 = 7 := by
    simp [get_changeover_time, posEnv, collectTimes, outerTimes, innerTime]
  have hsort : sortResourceSchedule [((5 : ℤ), (9 : ℤ), 2), ((0 : ℤ), (4 : ℤ), 1)] =
      [((0 : ℤ), (4 : ℤ), 1), ((5 : ℤ), (9 : ℤ), 2)] := by
    norm_num [sortResourceSchedule, insertByStart]
  have hmain := post_solve_setup_and_emission posEnv 10
    [((5 : ℤ), (9 : ℤ), 2), ((0 : ℤ), (4 : ℤ), 1)] (fun q => q + 100) "A" 2 5 9
  have htbl := hmain.2.2.1 ((0 : ℤ), (4 : ℤ), 1) [((5 : ℤ), (9 : ℤ), 2)] hsort
  have htbl' : taskSetupTimes posEnv 10 [((5 : ℤ), (9 : ℤ), 2), ((0 : ℤ), (4 : ℤ), 1)] =
      [(1, (0 : ℚ)), (2, (7 : ℚ))] := by
    rw [htbl]
    simp [h12]
  refine ⟨htbl', ?_⟩
  have hlk : lookupSetup (taskSetupTimes posEnv 10
      [((5 : ℤ), (9 : ℤ), 2), ((0 : ℤ), (4 : ℤ), 1)]) 2 = 7 := by
    rw [htbl']
    norm_num [lookupSetup, List.find?]
  have hemit := hmain.2.2.2.1 (by rw [hlk]; norm_num)
  rw [hemit, hlk]
  norm_num [pyTrunc]

/-- Claim C1: `get_data` returns 11 streams while `solve_schedule`
unpacks 15, so every run aborts during data loading — whatever the
database holds, `solve_schedule` returns `None` before any model is
built. -/
theorem solve_schedule_always_aborts {α : Type} (db : SourceDb α) :
    solve_schedule_load db = none := by
  unfold solve_schedule_load get_data
  by_cases h : db.connectionOk
  · rw [if_pos h]
    rfl
  · rw [if_neg h]

/- ### Lemmas about the results sink -/

theorem insertRows_error_invariants (fs : FailSpec) :
    ∀ (rows : List DbRow) (idx : Nat) (c c2 : Conn),
      insertRows fs rows idx c = .error c2 →
      c2.committed = c.committed ∧ c2.commits = c.commits := by
  intro rows
  induction rows with
  | nil => intro idx c c2 h; exact absurd h (by simp [insertRows])
  | cons r rest ih =>
    intro idx c c2 h
    unfold insertRows at h
    by_cases hf : fs.failInsertAt = some idx
    · rw [if_pos hf] at h
      cases h
      exact ⟨rfl, rfl⟩
    · rw [if_neg hf] at h
      obtain ⟨h1, h2⟩ := ih (idx + 1) { c with pending := c.pending ++ [r] } c2 h
      exact ⟨h1, h2⟩

theorem insertRows_ok_invariants (fs : FailSpec) :
    ∀ (rows : List DbRow) (idx : Nat) (c c2 : Conn),
      insertRows fs rows idx c = .ok c2 →
      c2.committed = c.committed ∧ c2.commits = c.commits ∧
        c2.pending = c.pending ++ rows := by
  intro rows
  induction rows with
  | nil =>
    intro idx c c2 h
    unfold insertRows at h
    cases h
    exact ⟨rfl, rfl, by simp⟩
  | cons r rest ih =>
    intro idx c c2 h
    unfold insertRows at h
    by_cases hf : fs.failInsertAt = some idx
    · rw [if_pos hf] at h
      exact absurd h (by simp)
    · rw [if_neg hf] at h
      obtain ⟨h1, h2, h3⟩ := ih (idx + 1) { c with pending := c.pending ++ [r] } c2 h
      exact ⟨h1, h2, by simpa using h3⟩

theorem runSaveTransaction_error_invariants (fs : FailSpec) (rows : List DbRow)
    (c c2 : Conn) (h : runSaveTransaction fs rows c = .error c2) :
    c2.committed = c.committed ∧ c2.commits = c.commits := by
  unfold runSaveTransaction at h
  by_cases h1 : fs.failTruncate
  · rw [if_pos h1] at h
    cases h
    exact ⟨rfl, rfl⟩
  · rw [if_neg h1] at h
    by_cases h2 : fs.failIdentityOn
    · rw [if_pos h2] at h
      cases h
      exact ⟨rfl, rfl⟩
    · rw [if_neg h2] at h
      cases hins : insertRows fs rows 0 { c with pending := [] } with
      | error c3 =>
        rw [hins] at h
        unfold finishSave at h
        cases h
        exact insertRows_error_invariants fs rows 0 { c with pending := [] } c2 hins
      | ok c3 =>
        rw [hins] at h
        unfold finishSave at h
        have h' : (if fs.failIdentityOff = true then (Except.error c3 : Except Conn Conn)
            else if fs.failCommit = true then (Except.error c3 : Except Conn Conn)
            else Except.ok (Conn.mk c3.pending c3.pending (c3.commits + 1))) =
            Except.error c2 := h
        obtain ⟨hc, hk, -⟩ :=
          insertRows_ok_invariants fs rows 0 { c with pending := [] } c3 hins
        by_cases h3 : fs.failIdentityOff
        · rw [if_pos h3] at h'
          cases h'
          exact ⟨hc, hk⟩
        · rw [if_neg h3] at h'
          by_cases h4 : fs.failCommit
          · rw [if_pos h4] at h'
            cases h'
            exact ⟨hc, hk⟩
          · rw [if_neg h4] at h'
            exact absurd h' (by simp)

theorem runSaveTransaction_ok_invariants (fs : FailSpec) (rows : List DbRow)
    (c c2 : Conn) (h : runSaveTransaction fs rows c = .ok c2) :
    c2.committed = rows ∧ c2.commits = c.commits + 1 := by
  unfold runSaveTransaction at h
  by_cases h1 : fs.failTruncate
  · rw [if_pos h1] at h
    exact absurd h (by simp)
  · rw [if_neg h1] at h
    by_cases h2 : fs.failIdentityOn
    · rw [if_pos h2] at h
      exact absurd h (by simp)
    · rw [if_neg h2] at h
      cases hins : insertRows fs rows 0 { c with pending := [] } with
      | error c3 =>
        rw [hins] at h
        unfold finishSave at h
        exact absurd h (by simp)
      | ok c3 =>
        rw [hins] at h
        unfold finishSave at h
        have h' : (if fs.failIdentityOff = true then (Except.error c3 : Except Conn Conn)
            else if fs.failCommit = true then (Except.error c3 : Except Conn Conn)
            else Except.ok (Conn.mk c3.pending c3.pending (c3.commits + 1))) =
            Except.ok c2 := h
        obtain ⟨hc, hk, hp⟩ :=
          insertRows_ok_invariants fs rows 0 { c with pending := [] } c3 hins
        by_cases h3 : fs.failIdentityOff
        · rw [if_pos h3] at h'
          exact absurd h' (by simp)
        · rw [if_neg h3] at h'
          by_cases h4 : fs.failCommit
          · rw [if_pos h4] at h'
            exact absurd h' (by simp)
          · rw [if_neg h4] at h'
            cases h'
            refine ⟨?_, by rw [hk]⟩
            simpa using hp

/-- Claim C10: `save_schedule` replaces the Orders table all-or-nothing:
the connection is always closed, and the visible table ends either in its
full pre-call state with zero commits (connect failure or any database
error, after rollback) or holding exactly the mapped schedule —
preserving the provided ids — with exactly one commit at the end. -/
theorem save_schedule_atomic (fs : FailSpec) (initTable : List DbRow)
    (scheduleData : List SchedRow) :
    (save_schedule fs initTable scheduleData).connClosed = true ∧
    (((save_schedule fs initTable scheduleData).table = initTable ∧
      (save_schedule fs initTable scheduleData).commits = 0) ∨
     ((save_schedule fs initTable scheduleData).table = scheduleData.map toDbRow ∧
      (save_schedule fs initTable scheduleData).table.map DbRow.id =
        scheduleData.map SchedRow.id ∧
      (save_schedule fs initTable scheduleData).commits = 1)) := by
  unfold save_schedule
  by_cases hc : fs.failConnect
  · rw [if_pos hc]
    exact ⟨rfl, Or.inl ⟨rfl, rfl⟩⟩
  · rw [if_neg hc]
    cases hrun : runSaveTransaction fs (scheduleData.map toDbRow)
        { committed := initTable, pending := initTable, commits := 0 } with
    | ok c =>
      obtain ⟨h1, h2⟩ := runSaveTransaction_ok_invariants fs _ _ c hrun
      refine ⟨rfl, Or.inr ⟨h1, ?_, h2⟩⟩
      show List.map DbRow.id c.committed = List.map SchedRow.id scheduleData
      rw [h1, List.map_map]
      rfl
    | error c =>
      obtain ⟨h1, h2⟩ := runSaveTransaction_error_invariants fs _ _ c hrun
      exact ⟨rfl, Or.inl ⟨h1, h2⟩⟩

/-- Claim C9 (amended): no error raised inside `save_schedule` reaches
the caller — database errors are caught, printed, and the function
returns normally; the rollback does happen at the sink, so the table
stays in its pre-call state (zero commits) or holds the full new schedule
(one commit). -/
theorem sink_errors_not_surfaced (fs : FailSpec) (initTable : List DbRow)
    (scheduleData : List SchedRow) :
    (save_schedule fs initTable scheduleData).raised = false ∧
    (((save_schedule fs initTable scheduleData).table = initTable ∧
      (save_schedule fs initTable scheduleData).commits = 0) ∨
     ((save_schedule fs initTable scheduleData).table = scheduleData.map toDbRow ∧
      (save_schedule fs initTable scheduleData).commits = 1)) := by
  unfold save_schedule
  by_cases hc : fs.failConnect
  · rw [if_pos hc]
    exact ⟨rfl, Or.inl ⟨rfl, rfl⟩⟩
  · rw [if_neg hc]
    cases hrun : runSaveTransaction fs (scheduleData.map toDbRow)
        { committed := initTable, pending := initTable, commits := 0 } with
    | ok c =>
      obtain ⟨h1, h2⟩ := runSaveTransaction_ok_invariants fs _ _ c hrun
      exact ⟨rfl, Or.inr ⟨h1, h2⟩⟩
    | error c =>
      obtain ⟨h1, h2⟩ := runSaveTransaction_error_invariants fs _ _ c hrun
      exact ⟨rfl, Or.inl ⟨h1, h2⟩⟩

/-- Claim C9 counterexample: the database rejects the first insert (a
write error at the sink), yet `save_schedule` raises nothing to the
caller — the error is caught, printed and discarded (zero commits show
the write indeed failed, and the table keeps its pre-call contents). -/
theorem sink_error_swallowed :
    failingSink.failInsertAt = some 0 ∧
    (save_schedule failingSink [] [sampleRow]).raised = false ∧
    (save_schedule failingSink [] [sampleRow]).commits = 0 ∧
    (save_schedule failingSink [] [sampleRow]).table = [] := by
  refine ⟨rfl, ?_, ?_, ?_⟩ <;> rfl
